import Mathlib

/-!
Verification of the selector resolution and ranking engine of the
LLM-assisted loan-application web scraper.

The development shallowly embeds the two core source files:

* `web_selectors/selector_manager.py` — the pure scoring/ranking heuristics
  (`SelectorManager.rank_selectors`, `SelectorManager.generate_selector_from_attrs`);
* `agents/orchestrator.py` — the stateful resolution routine
  `AsyncLangGraphOrchestrator._try_selectors`, modelled as a pure function over
  an oracle describing the live page, producing an outcome, an updated session
  and a trace of browser-facing events.

Python dicts with string keys are modelled as association lists in insertion
order; Python string operations (`in`, `count`, `strip`, `split`, `lower`) are
re-implemented on `List Char` with Python semantics.
-/

namespace Scraper

/-- Characters treated as whitespace by Python's `str.strip`/`str.split`. -/
def isWs (c : Char) : Bool :=
  c == ' ' || c == '\t' || c == '\n' || c == '\r' || c == '\x0b' || c == '\x0c'

/-- Python `str.strip()`: drop leading and trailing whitespace. -/
def pyStrip (l : List Char) : List Char :=
  ((l.dropWhile isWs).reverse.dropWhile isWs).reverse

/-- Python substring test `pat in s`, on character lists. -/
def subAux (pat : List Char) : List Char → Bool
  | [] => pat.isEmpty
  | c :: rest => pat.isPrefixOf (c :: rest) || subAux pat rest

/-- Python substring test `pat in s` for strings. -/
def hasSub (s pat : String) : Bool := subAux pat.data s.data

/-- Python `s.count(pat)`: number of non-overlapping occurrences.  The first
`Nat` argument counts characters still to skip after a match (structural
recursion on the character list so the kernel can evaluate it). -/
def occSkip (pat : List Char) : Nat → List Char → Nat
  | _, [] => 0
  | k + 1, _ :: rest => occSkip pat k rest
  | 0, c :: rest =>
    if pat.isPrefixOf (c :: rest) then occSkip pat (pat.length - 1) rest + 1
    else occSkip pat 0 rest

/-- Python `s.count(pat)` for strings. -/
def pyCount (s pat : String) : Nat := occSkip pat.data 0 s.data

/-- Python `s.lower()` (ASCII-adequate). -/
def lowerStr (s : String) : String := ⟨s.data.map Char.toLower⟩

/-- Accumulator for `pySplitWs`: `acc` holds the current token, reversed. -/
def wsSplitAux : List Char → List Char → List (List Char)
  | [], acc => if acc.isEmpty then [] else [acc.reverse]
  | c :: rest, acc =>
    if isWs c then
      if acc.isEmpty then wsSplitAux rest [] else acc.reverse :: wsSplitAux rest []
    else wsSplitAux rest (c :: acc)

/-- Python `str.split()` (no argument): split on whitespace runs, no empty parts. -/
def pySplitWs (l : List Char) : List (List Char) := wsSplitAux l []

/-- A Python dict with string keys and string values, in insertion order. -/
abbrev Attrs := List (String × String)

/-- A candidate dict, as passed around the orchestrator (keys such as
`"selector"`, `"text"`, `"aria-label"`, `"data-testid"`, ...). -/
abbrev Cand := Attrs

/-- Python `d.get(k)` / `d[k]` lookup (first binding of the key). -/
def dget? (d : Attrs) (k : String) : Option String :=
  (d.find? (fun p => p.1 == k)).map (fun p => p.2)

/-- Python `d.get(k, dflt)`. -/
def dget (d : Attrs) (k : String) (dflt : String) : String :=
  (dget? d k).getD dflt

/-- Python `k in d`. -/
def dmem (d : Attrs) (k : String) : Bool := (dget? d k).isSome

/-- The inner `score` function of `SelectorManager.rank_selectors`
(`web_selectors/selector_manager.py`, lines 16–71), translated step by step:
each Python `if cond: s += k` becomes `s + (if cond then k else 0)`. -/
def score (cand : Cand) : Int :=
  let sel := dget cand "selector" ""
  let text := dget cand "text" ""
  let s : Int := 0
  -- if sel.strip().startswith("#"): s += 100
  let s := s + (if List.isPrefixOf ['#'] (pyStrip sel.data) then 100 else 0)
  -- if "data-testid" in sel or "data-test" in sel: s += 90
  let s := s + (if hasSub sel "data-testid" || hasSub sel "data-test" then 90 else 0)
  -- if "name=" in sel or "for=" in sel: s += 80
  let s := s + (if hasSub sel "name=" || hasSub sel "for=" then 80 else 0)
  -- if "aria-label" in sel: s += 70
  let s := s + (if hasSub sel "aria-label" then 70 else 0)
  -- if "[role=" in sel: s += 65
  let s := s + (if hasSub sel "[role=" then 65 else 0)
  -- if "data-" in sel: s += 60
  let s := s + (if hasSub sel "data-" then 60 else 0)
  -- if text and ("button" in sel.lower() or "a[" in sel or "link" in sel.lower()): s += 55
  let s := s + (if text != "" && (hasSub (lowerStr sel) "button" || hasSub sel "a[" || hasSub (lowerStr sel) "link") then 55 else 0)
  -- if sel.count(".") == 1: s += 50  elif sel.count(".") > 1: s += 40
  let s := s + (if pyCount sel "." == 1 then 50 else if pyCount sel "." > 1 then 40 else 0)
  -- if "nth-child" in sel or "nth-of-type" in sel: s += 30
  let s := s + (if hasSub sel "nth-child" || hasSub sel "nth-of-type" then 30 else 0)
  -- if text and the exact-text pattern is in sel: s += 45  elif text and "contains(text()" in sel: s += 35
  let s := s + (if text != "" && hasSub sel ("text()=\"" ++ text ++ "\"") then 45
                else if text != "" && hasSub sel "contains(text()" then 35 else 0)
  -- if len(sel) > 150: s -= 20
  let s := s + (if sel.length > 150 then -20 else 0)
  -- if sel.count("/") > 5: s -= 15
  let s := s + (if pyCount sel "/" > 5 then -15 else 0)
  -- if sel.count(" > ") > 3: s -= 15
  let s := s + (if pyCount sel " > " > 3 then -15 else 0)
  s

/-- Embedding of `SelectorManager.rank_selectors`: Python's stable
`sorted(candidates, key=lambda c: -score(c))`, modelled by the stable
`List.mergeSort`. -/
def rank_selectors (candidates : List Cand) : List Cand :=
  candidates.mergeSort (fun a b => decide (-score a ≤ -score b))

/-- Embedding of `SelectorManager.generate_selector_from_attrs`
(`web_selectors/selector_manager.py`, lines 81–97).  When `attrs["class"]`
has no whitespace-separated token, Python's `attrs["class"].split()[0]`
raises `IndexError`; that path is modelled as `none`. -/
def generate_selector_from_attrs (tag : String) (attrs : Attrs) : Option String :=
  if dmem attrs "id" then some (tag ++ "#" ++ dget attrs "id" "")
  else
    match attrs.find? (fun p => List.isPrefixOf "data-".data p.1.data) with
    | some p => some (tag ++ "[" ++ p.1 ++ "=\x27" ++ dget attrs p.1 "" ++ "\x27]")
    | none =>
      if dmem attrs "aria-label" then
        some (tag ++ "[aria-label=\x27" ++ dget attrs "aria-label" "" ++ "\x27]")
      else if dmem attrs "name" then
        some (tag ++ "[name=\x27" ++ dget attrs "name" "" ++ "\x27]")
      else if dmem attrs "class" then
        match pySplitWs (dget attrs "class" "").data with
        | [] => none
        | t :: _ => some (tag ++ "." ++ ⟨t⟩)
      else
        match attrs with
        | [] => some tag
        | p :: _ => some (tag ++ "[" ++ p.1 ++ "=\x27" ++ p.2 ++ "\x27]")

/-! ### Claim C1: the ranking score against the §4.2 table -/

/-- The scoring table exactly as claim C1 states it: additive from 0, all
matching signals applied, with `data-qa` among the test-id attributes and the
exact-text (+45) and substring (+35) bonuses both applied when both match. -/
def scoreSpecC1 (cand : Cand) : Int :=
  let sel := dget cand "selector" ""
  let text := dget cand "text" ""
  (if List.isPrefixOf ['#'] (pyStrip sel.data) then 100 else 0)
  + (if hasSub sel "data-testid" || hasSub sel "data-test" || hasSub sel "data-qa" then 90 else 0)
  + (if hasSub sel "name=" || hasSub sel "for=" then 80 else 0)
  + (if hasSub sel "aria-label" then 70 else 0)
  + (if hasSub sel "[role=" then 65 else 0)
  + (if hasSub sel "data-" then 60 else 0)
  + (if text != "" && (hasSub (lowerStr sel) "button" || hasSub sel "a[" || hasSub (lowerStr sel) "link") then 55 else 0)
  + (if pyCount sel "." == 1 then 50 else if pyCount sel "." > 1 then 40 else 0)
  + (if hasSub sel "nth-child" || hasSub sel "nth-of-type" then 30 else 0)
  + (if text != "" && hasSub sel ("text()=\"" ++ text ++ "\"") then 45 else 0)
  + (if text != "" && hasSub sel "contains(text()" then 35 else 0)
  + (if sel.length > 150 then -20 else 0)
  + (if pyCount sel "/" > 5 then -15 else 0)
  + (if pyCount sel " > " > 3 then -15 else 0)

/-- The scoring table as claim C1 must be amended to match the code: the
test-id bonus fires only for `data-testid`/`data-test` (never for `data-qa`),
and the exact-text (+45) and substring (+35) bonuses are mutually exclusive,
exact taking precedence. -/
def scoreSpecC1Amended (cand : Cand) : Int :=
  let sel := dget cand "selector" ""
  let text := dget cand "text" ""
  (if List.isPrefixOf ['#'] (pyStrip sel.data) then 100 else 0)
  + (if hasSub sel "data-testid" || hasSub sel "data-test" then 90 else 0)
  + (if hasSub sel "name=" || hasSub sel "for=" then 80 else 0)
  + (if hasSub sel "aria-label" then 70 else 0)
  + (if hasSub sel "[role=" then 65 else 0)
  + (if hasSub sel "data-" then 60 else 0)
  + (if text != "" && (hasSub (lowerStr sel) "button" || hasSub sel "a[" || hasSub (lowerStr sel) "link") then 55 else 0)
  + (if pyCount sel "." == 1 then 50 else if pyCount sel "." > 1 then 40 else 0)
  + (if hasSub sel "nth-child" || hasSub sel "nth-of-type" then 30 else 0)
  + (if text != "" && hasSub sel ("text()=\"" ++ text ++ "\"") then 45
     else if text != "" && hasSub sel "contains(text()" then 35 else 0)
  + (if sel.length > 150 then -20 else 0)
  + (if pyCount sel "/" > 5 then -15 else 0)
  + (if pyCount sel " > " > 3 then -15 else 0)

/-- A candidate containing a `data-qa` marker together with both an exact-text
and a substring text predicate.  Claim C1 predicts 90 + 60 + 45 + 35 = 230;
the code computes 60 + 45 = 105. -/
def cexC1 : Cand :=
  [("selector", "//*[contains(text(),\"Go\")][text()=\"Go\"][data-qa=\"x\"]"), ("text", "Go")]

/-- C1 (counterexample): the §4.2 table as stated in the claim disagrees with
the code's score on `cexC1`: the code has no `data-qa` test-id bonus, and its
exact/substring text bonuses are an `if`/`elif`, not both applied. -/
theorem C1_counterexample :
    scoreSpecC1 cexC1 ≠ score cexC1 ∧ scoreSpecC1 cexC1 = 230 ∧ score cexC1 = 105 := by
  decide

/-- C1 (amended): the ranking score is computed additively starting at 0,
applying every matching signal of the §4.2 table, except that the test-id
bonus (+90) fires only for `data-testid`/`data-test` — never for `data-qa` —
and the +45 exact-text and +35 substring text bonuses are mutually exclusive
(exact takes precedence when both match). -/
theorem C1_amended_score_table (cand : Cand) : score cand = scoreSpecC1Amended cand := by
  simp only [score, scoreSpecC1Amended, zero_add]

/-! ### Claim C2: ranking is deterministic and a stable descending sort -/

/-- C2: `rank_selectors` is deterministic (it is a function: two runs on the
same input give the same output), sorts by descending score, permutes its
input, and is stable: candidates of each fixed score keep their original
relative order. -/
theorem C2_rank_deterministic_and_stable (l : List Cand) :
    rank_selectors l = rank_selectors l ∧
    (rank_selectors l).Pairwise (fun a b => score b ≤ score a) ∧
    (rank_selectors l).Perm l ∧
    ∀ k : Int, (rank_selectors l).filter (fun c => score c == k) =
      l.filter (fun c => score c == k) := by
  have htrans : ∀ a b c : Cand,
      (fun a b => decide (-score a ≤ -score b)) a b →
      (fun a b => decide (-score a ≤ -score b)) b c →
      (fun a b => decide (-score a ≤ -score b)) a c := by
    intro a b c hab hbc
    simp only [decide_eq_true_eq] at hab hbc ⊢
    omega
  have htotal : ∀ a b : Cand,
      ((fun a b => decide (-score a ≤ -score b)) a b ||
       (fun a b => decide (-score a ≤ -score b)) b a) = true := by
    intro a b
    simp only [Bool.or_eq_true, decide_eq_true_eq]
    omega
  refine ⟨rfl, ?_, ?_, ?_⟩
  · have h := List.sorted_mergeSort htrans htotal l
    refine h.imp ?_
    intro a b hab
    simp only [decide_eq_true_eq] at hab
    omega
  · exact List.mergeSort_perm l _
  · intro k
    set p : Cand → Bool := fun c => score c == k with hp
    have hkeep : ∀ a ∈ l.filter p, p a := fun a ha => (List.mem_filter.mp ha).2
    have hpair : (l.filter p).Pairwise (fun a b => decide (-score a ≤ -score b)) := by
      apply List.pairwise_of_forall_mem_list
      intro a ha b hb
      have ha' : score a = k := by simpa [hp] using (List.mem_filter.mp ha).2
      have hb' : score b = k := by simpa [hp] using (List.mem_filter.mp hb).2
      simp [ha', hb']
    have hsub : List.Sublist (l.filter p)
        (l.mergeSort (fun a b => decide (-score a ≤ -score b))) :=
      List.sublist_mergeSort htrans htotal hpair (List.filter_sublist l)
    have h2 := hsub.filter p
    rw [List.filter_eq_self.mpr hkeep] at h2
    have hperm : List.Perm
        ((l.mergeSort (fun a b => decide (-score a ≤ -score b))).filter p) (l.filter p) :=
      (List.mergeSort_perm l _).filter p
    exact (h2.eq_of_length hperm.length_eq.symm).symm

/-! ### Claim C10: selector generation from an attribute mapping -/

/-- The generation priority of claim C10, written from its words (amended in
the class case): `tag#id`; else the first `data-` key; else `aria-label`;
else `name`; else the first whitespace token of the class (no result at all
when the class value has no token — Python raises `IndexError`); else the
first attribute; else the bare tag. -/
def genSelSpecC10 (tag : String) (attrs : Attrs) : Option String :=
  match dget? attrs "id" with
  | some v => some (tag ++ "#" ++ v)
  | none =>
  match attrs.find? (fun p => List.isPrefixOf "data-".data p.1.data) with
  | some p => some (tag ++ "[" ++ p.1 ++ "=\x27" ++ p.2 ++ "\x27]")
  | none =>
  match dget? attrs "aria-label" with
  | some v => some (tag ++ "[aria-label=\x27" ++ v ++ "\x27]")
  | none =>
  match dget? attrs "name" with
  | some v => some (tag ++ "[name=\x27" ++ v ++ "\x27]")
  | none =>
  match dget? attrs "class" with
  | some v => (pySplitWs v.data).head?.map (fun t => tag ++ "." ++ (⟨t⟩ : String))
  | none =>
  match attrs with
  | [] => some tag
  | p :: _ => some (tag ++ "[" ++ p.1 ++ "=\x27" ++ p.2 ++ "\x27]")

/-- If `find?` on a data- key prefix succeeds, looking that key up again in
the dict yields the found value (earlier bindings have non-`data-` keys). -/
lemma dget_find?_data (attrs : Attrs) (p : String × String)
    (h : attrs.find? (fun q => List.isPrefixOf "data-".data q.1.data) = some p) :
    dget attrs p.1 "" = p.2 := by
  induction attrs with
  | nil => simp at h
  | cons a rest ih =>
    rw [List.find?_cons] at h
    cases hp : List.isPrefixOf "data-".data a.1.data with
    | true =>
      simp only [hp] at h
      cases h
      simp [dget, dget?]
    | false =>
      simp only [hp] at h
      have hq : (List.isPrefixOf "data-".data p.1.data) = true := by
        simpa using List.find?_some h
      have hne : (a.1 == p.1) = false := by
        cases hab : a.1 == p.1 with
        | false => rfl
        | true =>
          have hk : a.1 = p.1 := beq_iff_eq.mp hab
          rw [hk, hq] at hp
          cases hp
      have := ih h
      simpa [dget, dget?, List.find?_cons, hne] using this

/-- C10 (counterexample): the claim asserts a selector string is returned for
every attribute mapping, with `tag.<first class token>` when a `class` key is
present; but for a whitespace-only class value `attrs["class"].split()[0]`
raises `IndexError` and no selector string is produced at all. -/
theorem C10_counterexample : generate_selector_from_attrs "div" [("class", "")] = none := by
  decide

/-- Every selector produced by the spec-side cascade starts with the tag. -/
lemma genSelSpecC10_starts (tag : String) (attrs : Attrs) (r : String)
    (hr : genSelSpecC10 tag attrs = some r) : ∃ ext, r = tag ++ ext := by
  unfold genSelSpecC10 at hr
  cases hid : dget? attrs "id" with
  | some v =>
    simp only [hid] at hr
    injection hr with h
    exact ⟨"#" ++ v, by rw [← h]; simp [String.append_assoc]⟩
  | none =>
    simp only [hid] at hr
    cases hda : attrs.find? (fun p => List.isPrefixOf "data-".data p.1.data) with
    | some p =>
      simp only [hda] at hr
      injection hr with h
      exact ⟨"[" ++ p.1 ++ "=\x27" ++ p.2 ++ "\x27]", by rw [← h]; simp [String.append_assoc]⟩
    | none =>
      simp only [hda] at hr
      cases haria : dget? attrs "aria-label" with
      | some v =>
        simp only [haria] at hr
        injection hr with h
        exact ⟨"[aria-label=\x27" ++ v ++ "\x27]", by rw [← h]; simp [String.append_assoc]⟩
      | none =>
        simp only [haria] at hr
        cases hname : dget? attrs "name" with
        | some v =>
          simp only [hname] at hr
          injection hr with h
          exact ⟨"[name=\x27" ++ v ++ "\x27]", by rw [← h]; simp [String.append_assoc]⟩
        | none =>
          simp only [hname] at hr
          cases hcls : dget? attrs "class" with
          | some v =>
            simp only [hcls] at hr
            cases hsp : pySplitWs v.data with
            | nil => rw [hsp] at hr; simp at hr
            | cons t rest =>
              rw [hsp] at hr
              simp only [List.head?, Option.map] at hr
              injection hr with h
              exact ⟨"." ++ (⟨t⟩ : String), by rw [← h]; simp [String.append_assoc]⟩
          | none =>
            simp only [hcls] at hr
            cases attrs with
            | nil =>
              simp only [] at hr
              injection hr with h
              exact ⟨"", by rw [← h]; simp⟩
            | cons a rest =>
              simp only [] at hr
              injection hr with h
              exact ⟨"[" ++ a.1 ++ "=\x27" ++ a.2 ++ "\x27]",
                by rw [← h]; simp [String.append_assoc]⟩

/-- C10 (amended): `generate_selector_from_attrs` follows the claimed fixed
priority (id, first data- key, aria-label, name, first class token, first
attribute, bare tag) and every produced selector starts with the tag —
except that a present `class` key whose value has no whitespace-separated
token yields no selector at all (Python raises `IndexError`). -/
theorem C10_amended_priority (tag : String) (attrs : Attrs) :
    generate_selector_from_attrs tag attrs = genSelSpecC10 tag attrs ∧
    ∀ r, generate_selector_from_attrs tag attrs = some r → ∃ ext, r = tag ++ ext := by
  have hmain : generate_selector_from_attrs tag attrs = genSelSpecC10 tag attrs := by
    cases hid : dget? attrs "id" with
    | some v => simp [generate_selector_from_attrs, genSelSpecC10, dmem, dget, hid]
    | none =>
      cases hda : attrs.find? (fun p => List.isPrefixOf "data-".data p.1.data) with
      | some p =>
        simp [generate_selector_from_attrs, genSelSpecC10, dmem, hid, hda,
          dget_find?_data attrs p hda]
      | none =>
        cases haria : dget? attrs "aria-label" with
        | some v => simp [generate_selector_from_attrs, genSelSpecC10, dmem, dget, hid, hda, haria]
        | none =>
          cases hname : dget? attrs "name" with
          | some v =>
            simp [generate_selector_from_attrs, genSelSpecC10, dmem, dget, hid, hda, haria, hname]
          | none =>
            cases hcls : dget? attrs "class" with
            | some v =>
              cases hsp : pySplitWs v.data with
              | nil =>
                simp [generate_selector_from_attrs, genSelSpecC10, dmem, dget, hid, hda, haria,
                  hname, hcls, hsp]
              | cons t rest =>
                simp [generate_selector_from_attrs, genSelSpecC10, dmem, dget, hid, hda, haria,
                  hname, hcls, hsp]
            | none =>
              cases attrs with
              | nil => simp [generate_selector_from_attrs, genSelSpecC10, dmem, dget?]
              | cons a rest =>
                simp [generate_selector_from_attrs, genSelSpecC10, dmem, dget, hid, hda, haria,
                  hname, hcls]
  refine ⟨hmain, ?_⟩
  intro r hr
  rw [hmain] at hr
  exact genSelSpecC10_starts tag attrs r hr

/-- C10 witness: the amended theorem applied at `button` with a `data-action`
attribute, the hypothesis discharged at the concrete produced selector. -/
theorem C10_amended_priority_witness :
    ∃ ext, "button[data-action=\x27apply\x27]" = "button" ++ ext :=
  (C10_amended_priority "button" [("data-action", "apply")]).2
    "button[data-action=\x27apply\x27]" (by decide)

/-! ### Model of `AsyncLangGraphOrchestrator._try_selectors`
(`agents/orchestrator.py`, lines 434–635)

The live page is abstracted by an oracle, fixed for the duration of one
resolution call: what each probed selector resolves to, the element's
validation state, its `href`, and the page URL observed after clicking it.
Probe timeouts and exceptions caught by the per-selector `except` are folded
into a `none` probe result; a click whose exception or no-op leaves the URL
unchanged is an `afterClickUrl` equal to the pre-click URL.  The resolver's
browser-facing actions are recorded in an event trace. -/

/-- What a probe (`page.wait_for_selector`) observes for one selector string. -/
structure ElemInfo where
  visible : Bool
  enabled : Bool
  bbox : Bool
  href : Option String
  afterClickUrl : String
deriving DecidableEq

/-- Oracle for the single browser page opened by one resolution call.
`loadOk` covers the `goto` with its network-idle/DOM-content fallback;
`loadedUrl` is `page.url` after the load (the pre-click URL); `joinUrl`
models `urllib.parse.urljoin` (an external library function). -/
structure Page where
  loadOk : Bool
  loadedUrl : String
  content : String
  probe : String → Option ElemInfo
  contentAfter : String → String
  joinUrl : String → String → String

/-- The session memory threaded through resolution calls:
`state["already_clicked"]` and `state["visited_urls"]`. -/
structure Session where
  alreadyClicked : List String
  visitedUrls : List String
deriving DecidableEq

/-- The success dictionary returned by `_try_selectors`, carrying the new
url, the new html and the selector used; the open browser and page it also
carries are reflected by the absence of a `close` event. -/
structure NavOutcome where
  url : String
  html : String
  selector : String
deriving DecidableEq

/-- Browser-facing events performed by one resolution call. -/
inductive Ev where
  | launch
  | goto (url : String)
  | probe (sel : String)
  | click (sel : String)
  | close
deriving DecidableEq

/-- Result of one resolution call: the returned value, the session after the
call, and the trace of browser-facing events. -/
structure ResolveResult where
  outcome : Option NavOutcome
  session : Session
  events : List Ev
deriving DecidableEq

/-- One formatted LLM suggestion: `_get_llm_selectors` always shapes its
results as a dict with keys selector, text, source and selector_type.
The oracle supplies the raw `(selector, type)` pairs per label text (the
helper is cached by text, so one call per text is faithful). -/
def formatLlm (text : String) (p : String × String) : Cand :=
  [("selector", p.1), ("text", text), ("source", "llm"), ("selector_type", p.2)]

/-- The `element_selectors` list built for one ranked candidate
(`orchestrator.py`, lines 482–555): LLM suggestions (when there is text), the
original selector, the text-based XPath/CSS variants, then test-id,
accessibility, form, `data-` and compound attribute selectors, in source
order. -/
def expand_candidate (llm : String → List (String × String)) (s : Cand) : List Cand :=
  let text := dget s "text" ""
  (if text != "" then (llm text).map (formatLlm text) else [])
  ++ (match dget? s "selector" with
      | some b => if b != "" then [[("selector", b), ("text", text)]] else []
      | none => [])
  ++ (if text != "" then
        [[("selector", "//button[contains(text(),\"" ++ text ++ "\")]"), ("text", text)],
         [("selector", "//a[contains(text(),\"" ++ text ++ "\")]"), ("text", text)],
         [("selector", "//input[@value=\"" ++ text ++ "\"]"), ("text", text)],
         [("selector", "//*[text()=\"" ++ text ++ "\"]"), ("text", text)],
         [("selector", "a:has-text(\"" ++ text ++ "\")"), ("text", text)],
         [("selector", "button:has-text(\"" ++ text ++ "\")"), ("text", text)],
         [("selector", "[role=\"button\"]:has-text(\"" ++ text ++ "\")"), ("text", text)],
         [("selector", "//*[contains(text(),\"" ++ text ++ "\")]"), ("text", text)],
         [("selector", "//*[normalize-space()=\"" ++ text ++ "\"]"), ("text", text)],
         [("selector", "[title=\"" ++ text ++ "\"]"), ("text", text)]]
      else [])
  ++ ((s.filter (fun p => p.1 == "data-testid" || p.1 == "data-test" || p.1 == "data-qa")).map
      (fun p => [("selector", "[" ++ p.1 ++ "=\"" ++ p.2 ++ "\"]"), ("text", text)]))
  ++ ((["aria-label", "role", "title"].filter (fun a => dmem s a)).map
      (fun a => [("selector", "[" ++ a ++ "=\"" ++ dget s a "" ++ "\"]"), ("text", text)]))
  ++ ((["name", "for", "placeholder"].filter (fun a => dmem s a)).map
      (fun a => [("selector", "[" ++ a ++ "=\"" ++ dget s a "" ++ "\"]"), ("text", text)]))
  ++ ((s.filter (fun p => List.isPrefixOf "data-".data p.1.data)).map
      (fun p => [("selector", "[" ++ p.1 ++ "=\"" ++ p.2 ++ "\"]"), ("text", text)]))
  ++ (if text != "" && dmem s "role" then
        [[("selector", "[role=\"" ++ dget s "role" "" ++ "\"][text()=\"" ++ text ++ "\"]"),
          ("text", text)]]
      else [])

/-- One expanded selector tried against the page (`orchestrator.py`, lines
565–631): probe, validate visible/enabled/bounding-box, skip when the
resolved `href` (joined against the `url` argument, line 583) is already
visited, then click and compare the page URL before and after. -/
def selAttempt (P : Page) (url : String) (visited : List String) (sel : String) :
    Option NavOutcome × List Ev :=
  match P.probe sel with
  | none => (none, [Ev.probe sel])
  | some e =>
    if e.visible && e.enabled && e.bbox then
      match e.href with
      | some h =>
        if P.joinUrl url h ∈ visited then (none, [Ev.probe sel])
        else if e.afterClickUrl ≠ P.loadedUrl then
          (some ⟨e.afterClickUrl, P.contentAfter sel, sel⟩, [Ev.probe sel, Ev.click sel])
        else (none, [Ev.probe sel, Ev.click sel])
      | none =>
        if e.afterClickUrl ≠ P.loadedUrl then
          (some ⟨e.afterClickUrl, P.contentAfter sel, sel⟩, [Ev.probe sel, Ev.click sel])
        else (none, [Ev.probe sel, Ev.click sel])
    else (none, [Ev.probe sel])

/-- The inner loop over the ranked expanded selectors (`orchestrator.py`,
lines 559–631); a selector already in the entry `already_clicked` set is
skipped before any probe (line 561). -/
def runInner (P : Page) (url : String) (already visited : List String) :
    List Cand → Option NavOutcome × List Ev
  | [] => (none, [])
  | d :: rest =>
    let sel := dget d "selector" ""
    if sel ∈ already then runInner P url already visited rest
    else
      match selAttempt P url visited sel with
      | (some o, evs) => (some o, evs)
      | (none, evs) =>
        let r := runInner P url already visited rest
        (r.1, evs ++ r.2)

/-- The outer loop over the ranked original candidates (`orchestrator.py`,
lines 481–631): each is expanded, the expansion ranked, and tried in ranked
order. -/
def runOuter (P : Page) (llm : String → List (String × String)) (url : String)
    (already visited : List String) : List Cand → Option NavOutcome × List Ev
  | [] => (none, [])
  | s :: rest =>
    match runInner P url already visited (rank_selectors (expand_candidate llm s)) with
    | (some o, evs) => (some o, evs)
    | (none, evs) =>
      let r := runOuter P llm url already visited rest
      (r.1, evs ++ r.2)

/-- Whether a candidate survives the initial already-clicked filter
(`orchestrator.py`, line 443); Python keeps candidates whose
`s.get("selector")` (None when the key is absent) is not in the set. -/
def notClicked (already : List String) (s : Cand) : Bool :=
  match dget? s "selector" with
  | some v => !(decide (v ∈ already))
  | none => true

/-- Embedding of `AsyncLangGraphOrchestrator._try_selectors`
(`orchestrator.py`, lines 434–635): precondition checks, already-clicked
filter, page load with fallback, two-level ranking, per-selector attempt
loop, session update on success.  On success the open browser is part of the
returned dictionary and is not closed here — the callers close it — hence no
`close` event on that path. -/
def try_selectors (P : Page) (llm : String → List (String × String)) (url : String)
    (selectors : List Cand) (sess : Session) : ResolveResult :=
  if url = "" ∨ selectors = [] then ⟨none, sess, []⟩
  else if selectors.filter (notClicked sess.alreadyClicked) = [] then ⟨none, sess, []⟩
  else if P.loadOk then
    match runOuter P llm url sess.alreadyClicked sess.visitedUrls
        (rank_selectors (selectors.filter (notClicked sess.alreadyClicked))) with
    | (some o, evs) =>
      ⟨some o, ⟨sess.alreadyClicked ++ [o.selector], sess.visitedUrls ++ [o.url]⟩,
        [Ev.launch, Ev.goto url] ++ evs⟩
    | (none, evs) => ⟨none, sess, [Ev.launch, Ev.goto url] ++ evs ++ [Ev.close]⟩
  else ⟨none, sess, [Ev.launch, Ev.goto url, Ev.close]⟩

/-! ### Characterization lemmas for the attempt loops -/

/-- Events of one attempt concern only the attempted selector. -/
lemma selAttempt_events (P : Page) (url : String) (visited : List String) (sel : String) :
    ∀ ev ∈ (selAttempt P url visited sel).2, ev = Ev.probe sel ∨ ev = Ev.click sel := by
  intro ev hev
  unfold selAttempt at hev
  repeat' split at hev
  all_goals simp_all

/-- A successful attempt clicked its selector and saw the URL change. -/
lemma selAttempt_some (P : Page) (url : String) (visited : List String) (sel : String)
    (o : NavOutcome) (h : (selAttempt P url visited sel).1 = some o) :
    o.selector = sel ∧ (P.probe sel).map (fun e => e.afterClickUrl) = some o.url ∧
    o.url ≠ P.loadedUrl ∧ (selAttempt P url visited sel).2 = [Ev.probe sel, Ev.click sel] := by
  rcases hpr : P.probe sel with _ | e
  · simp [selAttempt, hpr] at h
  · by_cases hv : (e.visible && e.enabled && e.bbox) = true
    · rcases hh : e.href with _ | href
      · by_cases hnav : e.afterClickUrl ≠ P.loadedUrl
        · have h2 := h
          simp [selAttempt, hpr, hv, hh, hnav] at h2
          subst h2
          exact ⟨rfl, by simp [hpr], hnav, by simp [selAttempt, hpr, hv, hh, hnav]⟩
        · simp [selAttempt, hpr, hv, hh, hnav] at h
      · by_cases hmem : P.joinUrl url href ∈ visited
        · simp [selAttempt, hpr, hv, hh, hmem] at h
        · by_cases hnav : e.afterClickUrl ≠ P.loadedUrl
          · have h2 := h
            simp [selAttempt, hpr, hv, hh, hmem, hnav] at h2
            subst h2
            exact ⟨rfl, by simp [hpr], hnav, by simp [selAttempt, hpr, hv, hh, hmem, hnav]⟩
          · simp [selAttempt, hpr, hv, hh, hmem, hnav] at h
    · simp [selAttempt, hpr, hv] at h

/-- A failed attempt that clicked saw no URL change. -/
lemma selAttempt_none_click (P : Page) (url : String) (visited : List String)
    (sel sel' : String) (h1 : (selAttempt P url visited sel).1 = none)
    (h2 : Ev.click sel' ∈ (selAttempt P url visited sel).2) :
    sel' = sel ∧ (P.probe sel).map (fun e => e.afterClickUrl) = some P.loadedUrl := by
  rcases hpr : P.probe sel with _ | e
  · simp [selAttempt, hpr] at h2
  · by_cases hv : (e.visible && e.enabled && e.bbox) = true
    · rcases hh : e.href with _ | href
      · by_cases hnav : e.afterClickUrl ≠ P.loadedUrl
        · simp [selAttempt, hpr, hv, hh, hnav] at h1
        · simp only [ne_eq, not_not] at hnav
          simp [selAttempt, hpr, hv, hh, hnav] at h2
          simp [h2, hpr, hnav]
      · by_cases hmem : P.joinUrl url href ∈ visited
        · simp [selAttempt, hpr, hv, hh, hmem] at h2
        · by_cases hnav : e.afterClickUrl ≠ P.loadedUrl
          · simp [selAttempt, hpr, hv, hh, hmem, hnav] at h1
          · simp only [ne_eq, not_not] at hnav
            simp [selAttempt, hpr, hv, hh, hmem, hnav] at h2
            simp [h2, hpr, hnav]
    · simp [selAttempt, hpr, hv] at h2

/-- An element whose resolved href is already visited is never clicked by any
attempt. -/
lemma selAttempt_visited_no_click (P : Page) (url : String) (visited : List String)
    (sel : String) (e : ElemInfo) (href : String)
    (hp : P.probe sel = some e) (hh : e.href = some href)
    (hv : P.joinUrl url href ∈ visited) (sel' : String) :
    Ev.click sel ∉ (selAttempt P url visited sel').2 := by
  by_cases hs : sel' = sel
  · subst hs
    by_cases hvis : (e.visible && e.enabled && e.bbox) = true
    · simp [selAttempt, hp, hh, hvis, hv]
    · simp [selAttempt, hp, hvis]
  · intro hmem
    rcases selAttempt_events P url visited sel' _ hmem with h | h
    · simp at h
    · simp only [Ev.click.injEq] at h
      exact hs h.symm

/-- One-step unfolding of the inner loop. -/
lemma runInner_cons (P : Page) (url : String) (already visited : List String)
    (d : Cand) (rest : List Cand) :
    runInner P url already visited (d :: rest) =
      if dget d "selector" "" ∈ already then runInner P url already visited rest
      else
        match selAttempt P url visited (dget d "selector" "") with
        | (some o, evs) => (some o, evs)
        | (none, evs) =>
          ((runInner P url already visited rest).1,
            evs ++ (runInner P url already visited rest).2) := by
  rw [runInner]

/-- Every inner-loop event concerns a selector outside the entry
already-clicked set. -/
lemma runInner_events (P : Page) (url : String) (already visited : List String)
    (l : List Cand) :
    ∀ ev ∈ (runInner P url already visited l).2,
      ∃ sel, sel ∉ already ∧ (ev = Ev.probe sel ∨ ev = Ev.click sel) := by
  induction l with
  | nil => simp [runInner]
  | cons d rest ih =>
    intro ev hev
    rw [runInner_cons] at hev
    by_cases hskip : dget d "selector" "" ∈ already
    · rw [if_pos hskip] at hev
      exact ih ev hev
    · rw [if_neg hskip] at hev
      rcases hatt : selAttempt P url visited (dget d "selector" "") with ⟨o, evs⟩
      rw [hatt] at hev
      cases o with
      | some o' =>
        refine ⟨dget d "selector" "", hskip, ?_⟩
        exact selAttempt_events P url visited _ ev (by rw [hatt]; exact hev)
      | none =>
        rcases List.mem_append.mp hev with h | h
        · refine ⟨dget d "selector" "", hskip, ?_⟩
          exact selAttempt_events P url visited _ ev (by rw [hatt]; exact h)
        · exact ih ev h

/-- A successful inner loop clicked the outcome's selector (outside the entry
already-clicked set) and saw the URL change to the outcome's URL. -/
lemma runInner_some (P : Page) (url : String) (already visited : List String)
    (l : List Cand) (o : NavOutcome)
    (h : (runInner P url already visited l).1 = some o) :
    o.selector ∉ already ∧
    (P.probe o.selector).map (fun e => e.afterClickUrl) = some o.url ∧
    o.url ≠ P.loadedUrl ∧ Ev.click o.selector ∈ (runInner P url already visited l).2 := by
  induction l with
  | nil => simp [runInner] at h
  | cons d rest ih =>
    rw [runInner_cons] at h ⊢
    by_cases hskip : dget d "selector" "" ∈ already
    · rw [if_pos hskip] at h ⊢
      exact ih h
    · rw [if_neg hskip] at h ⊢
      rcases hatt : selAttempt P url visited (dget d "selector" "") with ⟨oatt, evs⟩
      rw [hatt] at h
      cases oatt with
      | some o' =>
        have ho : o' = o := by simpa using h
        subst ho
        obtain ⟨hsel, hmap, hne, hevs⟩ := selAttempt_some P url visited _ o' (by rw [hatt])
        rw [hatt] at hevs
        refine ⟨by rw [hsel]; exact hskip, by rw [hsel]; exact hmap, hne, ?_⟩
        rw [hevs, hsel]
        simp
      | none =>
        obtain ⟨h1, h2, h3, h4⟩ := ih h
        exact ⟨h1, h2, h3, List.mem_append.mpr (Or.inr h4)⟩

/-- In a failed inner loop every click saw no URL change. -/
lemma runInner_none_click (P : Page) (url : String) (already visited : List String)
    (l : List Cand) (sel : String)
    (h1 : (runInner P url already visited l).1 = none)
    (h2 : Ev.click sel ∈ (runInner P url already visited l).2) :
    (P.probe sel).map (fun e => e.afterClickUrl) = some P.loadedUrl := by
  induction l with
  | nil => simp [runInner] at h2
  | cons d rest ih =>
    rw [runInner_cons] at h1 h2
    by_cases hskip : dget d "selector" "" ∈ already
    · rw [if_pos hskip] at h1 h2
      exact ih h1 h2
    · rw [if_neg hskip] at h1 h2
      rcases hatt : selAttempt P url visited (dget d "selector" "") with ⟨oatt, evs⟩
      rw [hatt] at h1 h2
      cases oatt with
      | some o' => simp at h1
      | none =>
        rcases List.mem_append.mp h2 with h | h
        · obtain ⟨heq, hmap⟩ := selAttempt_none_click P url visited _ sel
            (by rw [hatt]) (by rw [hatt]; exact h)
          rw [heq]
          exact hmap
        · exact ih h1 h

/-- An element whose resolved href is already visited is never clicked by the
inner loop. -/
lemma runInner_visited_no_click (P : Page) (url : String) (already visited : List String)
    (l : List Cand) (sel : String) (e : ElemInfo) (href : String)
    (hp : P.probe sel = some e) (hh : e.href = some href)
    (hv : P.joinUrl url href ∈ visited) :
    Ev.click sel ∉ (runInner P url already visited l).2 := by
  induction l with
  | nil => simp [runInner]
  | cons d rest ih =>
    rw [runInner_cons]
    by_cases hskip : dget d "selector" "" ∈ already
    · rw [if_pos hskip]
      exact ih
    · rw [if_neg hskip]
      rcases hatt : selAttempt P url visited (dget d "selector" "") with ⟨oatt, evs⟩
      cases oatt with
      | some o' =>
        intro hmem
        exact selAttempt_visited_no_click P url visited sel e href hp hh hv _
          (by rw [hatt]; exact hmem)
      | none =>
        intro hmem
        rcases List.mem_append.mp hmem with h | h
        · exact selAttempt_visited_no_click P url visited sel e href hp hh hv _
            (by rw [hatt]; exact h)
        · exact ih h

/-- One-step unfolding of the outer loop. -/
lemma runOuter_cons (P : Page) (llm : String → List (String × String)) (url : String)
    (already visited : List String) (s : Cand) (rest : List Cand) :
    runOuter P llm url already visited (s :: rest) =
      match runInner P url already visited (rank_selectors (expand_candidate llm s)) with
      | (some o, evs) => (some o, evs)
      | (none, evs) =>
        ((runOuter P llm url already visited rest).1,
          evs ++ (runOuter P llm url already visited rest).2) := by
  rw [runOuter]

/-- Every outer-loop event concerns a selector outside the entry
already-clicked set. -/
lemma runOuter_events (P : Page) (llm : String → List (String × String)) (url : String)
    (already visited : List String) (l : List Cand) :
    ∀ ev ∈ (runOuter P llm url already visited l).2,
      ∃ sel, sel ∉ already ∧ (ev = Ev.probe sel ∨ ev = Ev.click sel) := by
  induction l with
  | nil => simp [runOuter]
  | cons s rest ih =>
    intro ev hev
    rw [runOuter_cons] at hev
    rcases hinn : runInner P url already visited (rank_selectors (expand_candidate llm s))
      with ⟨o, evs⟩
    rw [hinn] at hev
    cases o with
    | some o' =>
      exact runInner_events P url already visited _ ev (by rw [hinn]; exact hev)
    | none =>
      rcases List.mem_append.mp hev with h | h
      · exact runInner_events P url already visited _ ev (by rw [hinn]; exact h)
      · exact ih ev h

/-- A successful outer loop clicked the outcome's selector (outside the entry
already-clicked set) and saw the URL change to the outcome's URL. -/
lemma runOuter_some (P : Page) (llm : String → List (String × String)) (url : String)
    (already visited : List String) (l : List Cand) (o : NavOutcome)
    (h : (runOuter P llm url already visited l).1 = some o) :
    o.selector ∉ already ∧
    (P.probe o.selector).map (fun e => e.afterClickUrl) = some o.url ∧
    o.url ≠ P.loadedUrl ∧ Ev.click o.selector ∈ (runOuter P llm url already visited l).2 := by
  induction l with
  | nil => simp [runOuter] at h
  | cons s rest ih =>
    rw [runOuter_cons] at h ⊢
    rcases hinn : runInner P url already visited (rank_selectors (expand_candidate llm s))
      with ⟨oatt, evs⟩
    rw [hinn] at h
    cases oatt with
    | some o' =>
      have ho : o' = o := by simpa using h
      subst ho
      obtain ⟨h1, h2, h3, h4⟩ := runInner_some P url already visited _ o' (by rw [hinn])
      rw [hinn] at h4
      exact ⟨h1, h2, h3, h4⟩
    | none =>
      obtain ⟨h1, h2, h3, h4⟩ := ih h
      exact ⟨h1, h2, h3, List.mem_append.mpr (Or.inr h4)⟩

/-- In a failed outer loop every click saw no URL change. -/
lemma runOuter_none_click (P : Page) (llm : String → List (String × String)) (url : String)
    (already visited : List String) (l : List Cand) (sel : String)
    (h1 : (runOuter P llm url already visited l).1 = none)
    (h2 : Ev.click sel ∈ (runOuter P llm url already visited l).2) :
    (P.probe sel).map (fun e => e.afterClickUrl) = some P.loadedUrl := by
  induction l with
  | nil => simp [runOuter] at h2
  | cons s rest ih =>
    rw [runOuter_cons] at h1 h2
    rcases hinn : runInner P url already visited (rank_selectors (expand_candidate llm s))
      with ⟨oatt, evs⟩
    rw [hinn] at h1 h2
    cases oatt with
    | some o' => simp at h1
    | none =>
      rcases List.mem_append.mp h2 with h | h
      · exact runInner_none_click P url already visited _ sel (by rw [hinn]) (by rw [hinn]; exact h)
      · exact ih h1 h

/-- An element whose resolved href is already visited is never clicked by the
outer loop. -/
lemma runOuter_visited_no_click (P : Page) (llm : String → List (String × String))
    (url : String) (already visited : List String) (l : List Cand) (sel : String)
    (e : ElemInfo) (href : String) (hp : P.probe sel = some e) (hh : e.href = some href)
    (hv : P.joinUrl url href ∈ visited) :
    Ev.click sel ∉ (runOuter P llm url already visited l).2 := by
  induction l with
  | nil => simp [runOuter]
  | cons s rest ih =>
    rw [runOuter_cons]
    rcases hinn : runInner P url already visited (rank_selectors (expand_candidate llm s))
      with ⟨oatt, evs⟩
    cases oatt with
    | some o' =>
      intro hmem
      exact runInner_visited_no_click P url already visited _ sel e href hp hh hv
        (by rw [hinn]; exact hmem)
    | none =>
      intro hmem
      rcases List.mem_append.mp hmem with h | h
      · exact runInner_visited_no_click P url already visited _ sel e href hp hh hv
          (by rw [hinn]; exact h)
      · exact ih h

/-- The outer loop emits no `close` event (the browser is closed, or handed
to the caller, at the top level only). -/
lemma runOuter_no_close (P : Page) (llm : String → List (String × String)) (url : String)
    (already visited : List String) (l : List Cand) :
    Ev.close ∉ (runOuter P llm url already visited l).2 := by
  intro h
  rcases runOuter_events P llm url already visited l Ev.close h with ⟨sel, _, h' | h'⟩
  · simp at h'
  · simp at h'

/-- Exhaustive description of the four exit paths of `try_selectors`. -/
lemma try_selectors_cases (P : Page) (llm : String → List (String × String))
    (url : String) (cands : List Cand) (sess : Session) :
    try_selectors P llm url cands sess = ⟨none, sess, []⟩ ∨
    try_selectors P llm url cands sess =
      ⟨none, sess, [Ev.launch, Ev.goto url, Ev.close]⟩ ∨
    (∃ o evs, runOuter P llm url sess.alreadyClicked sess.visitedUrls
        (rank_selectors (cands.filter (notClicked sess.alreadyClicked))) = (some o, evs) ∧
      try_selectors P llm url cands sess =
        ⟨some o, ⟨sess.alreadyClicked ++ [o.selector], sess.visitedUrls ++ [o.url]⟩,
          [Ev.launch, Ev.goto url] ++ evs⟩) ∨
    (∃ evs, runOuter P llm url sess.alreadyClicked sess.visitedUrls
        (rank_selectors (cands.filter (notClicked sess.alreadyClicked))) = (none, evs) ∧
      try_selectors P llm url cands sess =
        ⟨none, sess, [Ev.launch, Ev.goto url] ++ evs ++ [Ev.close]⟩) := by
  by_cases h1 : url = "" ∨ cands = []
  · exact Or.inl (by simp [try_selectors, h1])
  by_cases h2 : cands.filter (notClicked sess.alreadyClicked) = []
  · exact Or.inl (by simp [try_selectors, h1, h2])
  by_cases h3 : P.loadOk
  · rcases hro : runOuter P llm url sess.alreadyClicked sess.visitedUrls
      (rank_selectors (cands.filter (notClicked sess.alreadyClicked))) with ⟨o, evs⟩
    cases o with
    | some o' =>
      refine Or.inr (Or.inr (Or.inl ⟨o', evs, rfl, ?_⟩))
      simp [try_selectors, h1, h2, h3, hro]
    | none =>
      refine Or.inr (Or.inr (Or.inr ⟨evs, rfl, ?_⟩))
      simp [try_selectors, h1, h2, h3, hro]
  · refine Or.inr (Or.inl ?_)
    simp [try_selectors, h1, h2, h3]

/-! ### Concrete worlds used by witnesses and counterexamples -/

/-- Demo oracle: selector `#go` resolves to a clickable element whose click
navigates away. -/
def pageD : Page :=
  { loadOk := true
    loadedUrl := "http://site/a"
    content := "<html>"
    probe := fun s => if s = "#go" then some ⟨true, true, true, none, "http://site/b"⟩ else none
    contentAfter := fun _ => "<html2>"
    joinUrl := fun b h => b ++ h }

/-- Demo LLM helper producing no suggestions. -/
def llmD : String → List (String × String) := fun _ => []

/-- Demo candidate list: the single candidate `#go` with no text. -/
def candsD : List Cand := [[("selector", "#go"), ("text", "")]]

/-- Demo session: one previously clicked selector and one visited URL. -/
def sessD : Session := ⟨["old"], ["http://seen"]⟩

/-- The outcome the demo run returns. -/
def outD : NavOutcome := ⟨"http://site/b", "<html2>", "#go"⟩

/-- Concrete evaluation of the demo run: success on `#go`, browser left open. -/
lemma try_selectors_demo :
    try_selectors pageD llmD "http://site/a" candsD sessD =
      ⟨some outD, ⟨["old", "#go"], ["http://seen", "http://site/b"]⟩,
        [Ev.launch, Ev.goto "http://site/a", Ev.probe "#go", Ev.click "#go"]⟩ := by
  simp [try_selectors, notClicked, dget?, dget, pageD, candsD, sessD, llmD, outD,
    runOuter_cons, runOuter, runInner_cons, runInner, expand_candidate, selAttempt,
    formatLlm, rank_selectors, dmem]

/-- Element with an href for the C6 worlds. -/
def elemE : ElemInfo := ⟨true, true, true, some "x", "http://other/"⟩

/-- Oracle for the C6 worlds: the page was requested at one URL but reports a
different `page.url` after loading (as after a redirect). -/
def pageE : Page :=
  { loadOk := true
    loadedUrl := "http://real/"
    content := "<html>"
    probe := fun s => if s = "#l" then some elemE else none
    contentAfter := fun _ => "<h2>"
    joinUrl := fun b h => b ++ h }

/-- Candidate list for the C6 worlds. -/
def candsE : List Cand := [[("selector", "#l"), ("text", "")]]

/-- Session for the C6 worlds: the element's href resolved against the live
page URL (`http://real/` ++ `x`) is already visited. -/
def sessE : Session := ⟨[], ["http://real/x"]⟩

/-- Concrete evaluation of the C6 counterexample run: requested URL
`http://req/`, so the code's `urljoin(url, href)` check misses the visited
entry and the element is clicked. -/
lemma try_selectors_demoE :
    try_selectors pageE llmD "http://req/" candsE sessE =
      ⟨some ⟨"http://other/", "<h2>", "#l"⟩, ⟨["#l"], ["http://real/x", "http://other/"]⟩,
        [Ev.launch, Ev.goto "http://req/", Ev.probe "#l", Ev.click "#l"]⟩ := by
  simp [try_selectors, notClicked, dget?, dget, pageE, candsE, sessE, llmD, elemE,
    runOuter_cons, runOuter, runInner_cons, runInner, expand_candidate, selAttempt,
    formatLlm, rank_selectors, dmem]

/-! ### Claim C3: empty input returns without touching the browser -/

/-- C3: resolution returns the empty result, the session untouched and no
browser event (no launch, no page load), whenever the url is empty, the
candidate list is empty, or every candidate's raw selector string is already
in the session's already-clicked set. -/
theorem C3_empty_input_no_browser (P : Page) (llm : String → List (String × String))
    (url : String) (cands : List Cand) (sess : Session)
    (h : url = "" ∨ cands = [] ∨
      ∀ c ∈ cands, ∃ v, dget? c "selector" = some v ∧ v ∈ sess.alreadyClicked) :
    try_selectors P llm url cands sess = ⟨none, sess, []⟩ := by
  by_cases hu : url = ""
  · simp [try_selectors, hu]
  by_cases hs : cands = []
  · simp [try_selectors, hs]
  rcases h with h | h | h
  · exact absurd h hu
  · exact absurd h hs
  · have hfil : cands.filter (notClicked sess.alreadyClicked) = [] := by
      rw [List.filter_eq_nil_iff]
      intro c hc
      obtain ⟨v, hv1, hv2⟩ := h c hc
      simp [notClicked, hv1, hv2]
    simp [try_selectors, hu, hs, hfil]

/-- C3 witness: the theorem applied at an empty url over the demo world. -/
theorem C3_empty_input_no_browser_witness :
    try_selectors pageD llmD "" candsD sessD = ⟨none, sessD, []⟩ :=
  C3_empty_input_no_browser pageD llmD "" candsD sessD (Or.inl rfl)

/-! ### Claim C4: already-clicked selectors are never probed or clicked -/

/-- C4: a selector string in the session's already-clicked set at entry is
never probed and never clicked during the resolution call, whatever the
other candidates are: the initial filter and the per-expanded-selector skip
check both exclude it. -/
theorem C4_already_clicked_never_touched (P : Page) (llm : String → List (String × String))
    (url : String) (cands : List Cand) (sess : Session) (sel : String)
    (h : sel ∈ sess.alreadyClicked) :
    Ev.probe sel ∉ (try_selectors P llm url cands sess).events ∧
    Ev.click sel ∉ (try_selectors P llm url cands sess).events := by
  rcases try_selectors_cases P llm url cands sess with heq | heq |
    ⟨o, evs, hro, heq⟩ | ⟨evs, hro, heq⟩ <;> rw [heq]
  · simp
  · simp
  · constructor <;> intro hmem
    · have hmem' : Ev.probe sel ∈ evs := by simpa using hmem
      obtain ⟨sel', hs', hpc⟩ := runOuter_events P llm url sess.alreadyClicked
        sess.visitedUrls _ _ (by rw [hro]; exact hmem')
      rcases hpc with hpc | hpc
      · simp only [Ev.probe.injEq] at hpc
        exact hs' (hpc ▸ h)
      · simp at hpc
    · have hmem' : Ev.click sel ∈ evs := by simpa using hmem
      obtain ⟨sel', hs', hpc⟩ := runOuter_events P llm url sess.alreadyClicked
        sess.visitedUrls _ _ (by rw [hro]; exact hmem')
      rcases hpc with hpc | hpc
      · simp at hpc
      · simp only [Ev.click.injEq] at hpc
        exact hs' (hpc ▸ h)
  · constructor <;> intro hmem
    · have hmem' : Ev.probe sel ∈ evs := by simpa using hmem
      obtain ⟨sel', hs', hpc⟩ := runOuter_events P llm url sess.alreadyClicked
        sess.visitedUrls _ _ (by rw [hro]; exact hmem')
      rcases hpc with hpc | hpc
      · simp only [Ev.probe.injEq] at hpc
        exact hs' (hpc ▸ h)
      · simp at hpc
    · have hmem' : Ev.click sel ∈ evs := by simpa using hmem
      obtain ⟨sel', hs', hpc⟩ := runOuter_events P llm url sess.alreadyClicked
        sess.visitedUrls _ _ (by rw [hro]; exact hmem')
      rcases hpc with hpc | hpc
      · simp at hpc
      · simp only [Ev.click.injEq] at hpc
        exact hs' (hpc ▸ h)

/-- C4 witness: the already-clicked selector `old` of the demo session is
never probed nor clicked in the demo run. -/
theorem C4_already_clicked_never_touched_witness :
    Ev.probe "old" ∉ (try_selectors pageD llmD "http://site/a" candsD sessD).events ∧
    Ev.click "old" ∉ (try_selectors pageD llmD "http://site/a" candsD sessD).events :=
  C4_already_clicked_never_touched pageD llmD "http://site/a" candsD sessD "old"
    (by simp [sessD])

/-! ### Claim C5: an outcome is returned iff the clicked URL changed -/

/-- C5: a navigation outcome is returned for a selector iff clicking that
selector changed the page URL: on success the outcome's selector was clicked
and the observed post-click URL (the outcome's URL) differs from the
pre-click URL; when no outcome is returned, every clicked selector left the
URL unchanged (the resolver continued past it). -/
theorem C5_outcome_iff_url_change (P : Page) (llm : String → List (String × String))
    (url : String) (cands : List Cand) (sess : Session) :
    (∀ o, (try_selectors P llm url cands sess).outcome = some o →
      (P.probe o.selector).map (fun e => e.afterClickUrl) = some o.url ∧
      o.url ≠ P.loadedUrl ∧
      Ev.click o.selector ∈ (try_selectors P llm url cands sess).events) ∧
    ((try_selectors P llm url cands sess).outcome = none →
      ∀ sel, Ev.click sel ∈ (try_selectors P llm url cands sess).events →
        (P.probe sel).map (fun e => e.afterClickUrl) = some P.loadedUrl) := by
  rcases try_selectors_cases P llm url cands sess with heq | heq |
    ⟨o', evs, hro, heq⟩ | ⟨evs, hro, heq⟩ <;> rw [heq]
  · constructor
    · intro o ho
      simp at ho
    · intro _ sel hmem
      simp at hmem
  · constructor
    · intro o ho
      simp at ho
    · intro _ sel hmem
      simp at hmem
  · constructor
    · intro o ho
      have ho' : o' = o := by simpa using ho
      subst ho'
      obtain ⟨h1, h2, h3, h4⟩ := runOuter_some P llm url sess.alreadyClicked
        sess.visitedUrls _ o' (by rw [hro])
      rw [hro] at h4
      refine ⟨h2, h3, ?_⟩
      simp [h4]
    · intro hnone
      simp at hnone
  · constructor
    · intro o ho
      simp at ho
    · intro _ sel hmem
      have hmem' : Ev.click sel ∈ evs := by simpa using hmem
      exact runOuter_none_click P llm url sess.alreadyClicked sess.visitedUrls _ sel
        (by rw [hro]) (by rw [hro]; exact hmem')

/-- C5 witness: the theorem's success direction applied to the demo run. -/
theorem C5_outcome_iff_url_change_witness :
    (pageD.probe outD.selector).map (fun e => e.afterClickUrl) = some outD.url ∧
    outD.url ≠ pageD.loadedUrl ∧
    Ev.click outD.selector ∈ (try_selectors pageD llmD "http://site/a" candsD sessD).events :=
  (C5_outcome_iff_url_change pageD llmD "http://site/a" candsD sessD).1 outD
    (by rw [try_selectors_demo])

/-! ### Claim C6: visited-href short-circuit -/

/-- C6 (counterexample): the claim resolves the href against the current page
URL, but the code resolves it against the `url` argument of the call
(`urljoin(url, href)`, orchestrator.py line 583).  In a run whose requested
URL differs from the loaded page URL (as after a redirect), an element whose
href joined with the live page URL is already visited is still clicked. -/
theorem C6_counterexample :
    pageE.probe "#l" = some elemE ∧ elemE.href = some "x" ∧
    pageE.joinUrl pageE.loadedUrl "x" ∈ sessE.visitedUrls ∧
    Ev.click "#l" ∈ (try_selectors pageE llmD "http://req/" candsE sessE).events := by
  refine ⟨rfl, rfl, by simp [pageE, sessE], ?_⟩
  rw [try_selectors_demoE]
  simp

/-- C6 (amended): an element whose href attribute, resolved to an absolute
URL against the resolution call's requested `url` argument (not the live
page URL, which may differ after redirects), equals an entry already in the
session's visited set is never clicked: the resolver skips it before any
click. -/
theorem C6_amended_visited_not_clicked (P : Page) (llm : String → List (String × String))
    (url : String) (cands : List Cand) (sess : Session) (sel : String) (e : ElemInfo)
    (href : String) (hp : P.probe sel = some e) (hh : e.href = some href)
    (hv : P.joinUrl url href ∈ sess.visitedUrls) :
    Ev.click sel ∉ (try_selectors P llm url cands sess).events := by
  rcases try_selectors_cases P llm url cands sess with heq | heq |
    ⟨o', evs, hro, heq⟩ | ⟨evs, hro, heq⟩ <;> rw [heq]
  · simp
  · simp
  · intro hmem
    have hmem' : Ev.click sel ∈ evs := by simpa using hmem
    exact runOuter_visited_no_click P llm url sess.alreadyClicked sess.visitedUrls _
      sel e href hp hh hv (by rw [hro]; exact hmem')
  · intro hmem
    have hmem' : Ev.click sel ∈ evs := by simpa using hmem
    exact runOuter_visited_no_click P llm url sess.alreadyClicked sess.visitedUrls _
      sel e href hp hh hv (by rw [hro]; exact hmem')

/-- C6 witness: when the requested URL equals the page URL of the C6 world,
the joined href is visited and the element is indeed never clicked. -/
theorem C6_amended_visited_not_clicked_witness :
    Ev.click "#l" ∉ (try_selectors pageE llmD "http://real/" candsE sessE).events :=
  C6_amended_visited_not_clicked pageE llmD "http://real/" candsE sessE "#l" elemE "x"
    rfl rfl (by simp [pageE, sessE])

/-! ### Claim C7: session memory grows additively, only on success -/

/-- C7: a resolution call mutates the session only on success and only
additively: on success the already-clicked list is extended by exactly the
clicked selector and the visited list by exactly the new URL (so neither
ever shrinks), and a call returning no outcome leaves the session exactly as
it was. -/
theorem C7_session_additive (P : Page) (llm : String → List (String × String))
    (url : String) (cands : List Cand) (sess : Session) :
    (∀ o, (try_selectors P llm url cands sess).outcome = some o →
      (try_selectors P llm url cands sess).session =
        ⟨sess.alreadyClicked ++ [o.selector], sess.visitedUrls ++ [o.url]⟩) ∧
    ((try_selectors P llm url cands sess).outcome = none →
      (try_selectors P llm url cands sess).session = sess) := by
  rcases try_selectors_cases P llm url cands sess with heq | heq |
    ⟨o', evs, hro, heq⟩ | ⟨evs, hro, heq⟩ <;> rw [heq]
  · exact ⟨fun o ho => by simp at ho, fun _ => rfl⟩
  · exact ⟨fun o ho => by simp at ho, fun _ => rfl⟩
  · refine ⟨fun o ho => ?_, fun hnone => by simp at hnone⟩
    have ho' : o' = o := by simpa using ho
    subst ho'
    rfl
  · exact ⟨fun o ho => by simp at ho, fun _ => rfl⟩

/-- C7 witness: the success case of the theorem over the demo run. -/
theorem C7_session_additive_witness :
    (try_selectors pageD llmD "http://site/a" candsD sessD).session =
      ⟨sessD.alreadyClicked ++ [outD.selector], sessD.visitedUrls ++ [outD.url]⟩ :=
  (C7_session_additive pageD llmD "http://site/a" candsD sessD).1 outD
    (by rw [try_selectors_demo])

/-! ### Claim C8: synthesis completeness for text-only candidates -/

/-- C8: for a candidate carrying only a non-empty text label (no attributes),
expansion — which never fails, being a total function — produces at least the
exact-text, contains-text and normalize-space XPaths, the tag-scoped XPaths
for button, a and input[value=], and the CSS has-text selectors for a,
button and [role=button], whatever the LLM helper contributes. -/
theorem C8_text_only_synthesis (T : String) (llm : String → List (String × String))
    (hT : T ≠ "") :
    ("//*[text()=\"" ++ T ++ "\"]") ∈
      (expand_candidate llm [("text", T)]).map (fun d => dget d "selector" "") ∧
    ("//*[contains(text(),\"" ++ T ++ "\")]") ∈
      (expand_candidate llm [("text", T)]).map (fun d => dget d "selector" "") ∧
    ("//*[normalize-space()=\"" ++ T ++ "\"]") ∈
      (expand_candidate llm [("text", T)]).map (fun d => dget d "selector" "") ∧
    ("//button[contains(text(),\"" ++ T ++ "\")]") ∈
      (expand_candidate llm [("text", T)]).map (fun d => dget d "selector" "") ∧
    ("//a[contains(text(),\"" ++ T ++ "\")]") ∈
      (expand_candidate llm [("text", T)]).map (fun d => dget d "selector" "") ∧
    ("//input[@value=\"" ++ T ++ "\"]") ∈
      (expand_candidate llm [("text", T)]).map (fun d => dget d "selector" "") ∧
    ("a:has-text(\"" ++ T ++ "\")") ∈
      (expand_candidate llm [("text", T)]).map (fun d => dget d "selector" "") ∧
    ("button:has-text(\"" ++ T ++ "\")") ∈
      (expand_candidate llm [("text", T)]).map (fun d => dget d "selector" "") ∧
    ("[role=\"button\"]:has-text(\"" ++ T ++ "\")") ∈
      (expand_candidate llm [("text", T)]).map (fun d => dget d "selector" "") := by
  have hT' : (T != "") = true := by simpa using hT
  refine ⟨?_, ?_, ?_, ?_, ?_, ?_, ?_, ?_, ?_⟩ <;>
    simp [expand_candidate, dget, dget?, dmem, hT', formatLlm]

/-- C8 witness: the theorem applied at the label of property P6. -/
theorem C8_text_only_synthesis_witness :
    ("//*[text()=\"" ++ "Apply Now" ++ "\"]") ∈
      (expand_candidate (fun _ => []) [("text", "Apply Now")]).map
        (fun d => dget d "selector" "") :=
  (C8_text_only_synthesis "Apply Now" (fun _ => []) (by decide)).1

/-! ### Claim C9: browser release discipline -/

/-- C9 (counterexample): the claim requires the browser to be released
exactly once before the call returns on every exit path including success;
but on success `_try_selectors` returns the dictionary carrying the still
open browser and page (orchestrator.py lines 619–625) without closing them —
its callers close the browser afterwards — so the demo run launches a
browser and performs no close before returning. -/
theorem C9_counterexample :
    (try_selectors pageD llmD "http://site/a" candsD sessD).outcome = some outD ∧
    Ev.launch ∈ (try_selectors pageD llmD "http://site/a" candsD sessD).events ∧
    (try_selectors pageD llmD "http://site/a" candsD sessD).events.count Ev.close = 0 := by
  rw [try_selectors_demo]
  exact ⟨rfl, by simp, rfl⟩

/-- C9 (amended): on every no-outcome exit path that opened a browser (page
load failure, candidate exhaustion) the browser is closed exactly once
before the call returns; on success the call performs no close — it returns
the still open browser/page to the caller, which is responsible for closing
it. -/
theorem C9_amended_release (P : Page) (llm : String → List (String × String))
    (url : String) (cands : List Cand) (sess : Session) :
    ((try_selectors P llm url cands sess).outcome = none →
      Ev.launch ∈ (try_selectors P llm url cands sess).events →
      (try_selectors P llm url cands sess).events.count Ev.close = 1) ∧
    (∀ o, (try_selectors P llm url cands sess).outcome = some o →
      Ev.launch ∈ (try_selectors P llm url cands sess).events ∧
      (try_selectors P llm url cands sess).events.count Ev.close = 0) := by
  rcases try_selectors_cases P llm url cands sess with heq | heq |
    ⟨o', evs, hro, heq⟩ | ⟨evs, hro, heq⟩ <;> rw [heq]
  · exact ⟨fun _ h => by simp at h, fun o ho => by simp at ho⟩
  · exact ⟨fun _ _ => rfl, fun o ho => by simp at ho⟩
  · refine ⟨fun hnone => by simp at hnone, fun o ho => ⟨by simp, ?_⟩⟩
    have hcl : Ev.close ∉ evs := by
      intro hmem
      exact runOuter_no_close P llm url sess.alreadyClicked sess.visitedUrls _
        (by rw [hro]; exact hmem)
    simp [List.count_append, List.count_cons, List.count_eq_zero.mpr hcl]
  · refine ⟨fun _ _ => ?_, fun o ho => by simp at ho⟩
    have hcl : Ev.close ∉ evs := by
      intro hmem
      exact runOuter_no_close P llm url sess.alreadyClicked sess.visitedUrls _
        (by rw [hro]; exact hmem)
    simp [List.count_append, List.count_cons, List.count_eq_zero.mpr hcl]

/-- C9 witness: the success case of the amended theorem over the demo run. -/
theorem C9_amended_release_witness :
    Ev.launch ∈ (try_selectors pageD llmD "http://site/a" candsD sessD).events ∧
    (try_selectors pageD llmD "http://site/a" candsD sessD).events.count Ev.close = 0 :=
  (C9_amended_release pageD llmD "http://site/a" candsD sessD).2 outD
    (by rw [try_selectors_demo])

end Scraper
